import Mathlib

/-!
Shallow embedding of the hums-card-gateway service (ECEHive/hums-card-gateway)
and proofs about its card normalizer, serial-device discovery, delivery
retry pipeline, reconnect state machine and update supervisor.

Strings from the JavaScript source are modelled as `List Char`.
-/

namespace CardGateway

/-- Raw scan lines and card identifiers are JavaScript strings,
modelled as lists of characters. -/
abbrev Str := List Char

/-- `const CARD_ID_LENGTH = 9;` from parsers.js. -/
def CARD_ID_LENGTH : Nat := 9

/-- The fixed 6-digit issuer marker `"601770"` used by the parsers. -/
def ISSUER : Str := "601770".data

/-- JavaScript `s.padStart(n, "0")`: left-pad with zeros up to length `n`;
a string already of length `≥ n` is returned unchanged. -/
def padStart (n : Nat) (s : Str) : Str :=
  List.replicate (n - s.length) '0' ++ s

/-- `fullParser` from parsers.js: equals-delimited scan data.  Requires a
`'='`, splits on it, finds the first segment starting with `"601770"`,
takes `seg.slice(9, -1)` (drop the 9-char head and the trailing check
digit), requires the remainder to be a non-empty run of decimal digits,
and zero-pads it to 9 characters. -/
def fullParser (raw : Str) : Option Str :=
  if raw.contains '=' then
    match (raw.splitOn '=').find? (fun s => s.take 6 == ISSUER) with
    | none => none
    | some seg =>
      let body := seg.dropLast.drop 9
      if body = [] ∨ body.all Char.isDigit = false then none
      else some (padStart CARD_ID_LENGTH body)
  else none

/-- `mobileParser` from parsers.js: the regex `^601770\d{10}$` — a 16-digit
number starting with `"601770"`, returned verbatim. -/
def mobileParser (raw : Str) : Option Str :=
  if raw.take 6 = ISSUER ∧ (raw.drop 6).length = 10 ∧ (raw.drop 6).all Char.isDigit = true
  then some raw else none

/-- `shortParser` from parsers.js: the regex `^\d+$` together with
`raw.length <= CARD_ID_LENGTH`, zero-padded to 9 characters. -/
def shortParser (raw : Str) : Option Str :=
  if raw ≠ [] ∧ raw.all Char.isDigit = true ∧ raw.length ≤ CARD_ID_LENGTH
  then some (padStart CARD_ID_LENGTH raw) else none

/-- `createCardParser` from parsers.js: run the parsers in list order and
return the first non-null result. -/
def createCardParser (ps : List (Str → Option Str)) (raw : Str) : Option Str :=
  match ps with
  | [] => none
  | p :: rest =>
    match p raw with
    | some r => some r
    | none => createCardParser rest raw

/-- `const builtinParsers = [fullParser, mobileParser, shortParser];` -/
def builtinParsers : List (Str → Option Str) := [fullParser, mobileParser, shortParser]

/-- `parseCardData = createCardParser(builtinParsers)` from index.js. -/
def parseCardData : Str → Option Str := createCardParser builtinParsers

/-! ### Helper lemmas about the normalizer -/

theorem parseCardData_cases (raw : Str) :
    parseCardData raw =
      match fullParser raw with
      | some r => some r
      | none =>
        match mobileParser raw with
        | some r => some r
        | none => shortParser raw := by
  simp only [parseCardData, builtinParsers, createCardParser]
  cases fullParser raw <;> cases mobileParser raw <;> cases shortParser raw <;> rfl

theorem padStart_all_digits (n : Nat) (s : Str) (h : s.all Char.isDigit = true) :
    (padStart n s).all Char.isDigit = true := by
  simp only [padStart, List.all_append, h, Bool.and_true]
  simp only [List.all_eq_true]
  intro c hc
  rw [List.eq_of_mem_replicate hc]
  decide

theorem padStart_length (n : Nat) (s : Str) :
    (padStart n s).length = (n - s.length) + s.length := by
  simp [padStart]

theorem padStart_length_of_le (n : Nat) (s : Str) (h : s.length ≤ n) :
    (padStart n s).length = n := by
  rw [padStart_length]
  omega

theorem padStart_eq_self (n : Nat) (s : Str) (h : n ≤ s.length) :
    padStart n s = s := by
  simp [padStart, Nat.sub_eq_zero_of_le h]

theorem contains_sep_eq_false (s : Str) (h : s.all Char.isDigit = true) :
    s.contains '=' = false := by
  rw [List.contains_eq_any_beq]
  simp only [List.all_eq_true] at h
  simp only [List.any_eq_false, beq_iff_eq]
  intro c hc hEq
  have := h c hc
  subst hEq
  exact absurd this (by decide)

theorem fullParser_shape (raw out : Str) (h : fullParser raw = some out) :
    out.all Char.isDigit = true ∧ CARD_ID_LENGTH ≤ out.length := by
  unfold fullParser at h
  split at h
  · split at h
    · exact absurd h (by simp)
    · rename_i seg hfind
      dsimp only at h
      split at h
      · exact absurd h (by simp)
      · rename_i hcond
        rw [Option.some_inj] at h
        subst h
        push_neg at hcond
        refine ⟨padStart_all_digits _ _ ?_, ?_⟩
        · rcases Bool.eq_false_or_eq_true ((List.drop 9 seg.dropLast).all Char.isDigit)
            with ht | hf
          · exact ht
          · exact absurd hf hcond.2
        · rw [padStart_length]
          omega
  · exact absurd h (by simp)

theorem mobileParser_shape (raw out : Str) (h : mobileParser raw = some out) :
    out = raw ∧ out.all Char.isDigit = true ∧ out.length = 16 := by
  unfold mobileParser at h
  split at h
  · rename_i hcond
    rw [Option.some_inj] at h
    subst h
    obtain ⟨htake, hlen, hdig⟩ := hcond
    refine ⟨rfl, ?_, ?_⟩
    · have hsplit : raw.take 6 ++ raw.drop 6 = raw := List.take_append_drop 6 raw
      rw [← hsplit, List.all_append, hdig, Bool.and_true, htake]
      decide
    · have : (raw.take 6).length = 6 := by rw [htake]; decide
      have hsplit : raw.take 6 ++ raw.drop 6 = raw := List.take_append_drop 6 raw
      have := congrArg List.length hsplit
      rw [List.length_append] at this
      omega
  · exact absurd h (by simp)

theorem shortParser_shape (raw out : Str) (h : shortParser raw = some out) :
    out = padStart CARD_ID_LENGTH raw ∧ out.all Char.isDigit = true ∧
      out.length = CARD_ID_LENGTH := by
  unfold shortParser at h
  split at h
  · rename_i hcond
    rw [Option.some_inj] at h
    subst h
    exact ⟨rfl, padStart_all_digits _ _ hcond.2.1, padStart_length_of_le _ _ hcond.2.2⟩
  · exact absurd h (by simp)

theorem fullParser_none_of_no_sep (raw : Str) (h : raw.contains '=' = false) :
    fullParser raw = none := by
  unfold fullParser
  split
  · rename_i hc
    rw [h] at hc
    exact absurd hc (by decide)
  · rfl

theorem parseCardData_some_cases (raw out : Str) (h : parseCardData raw = some out) :
    fullParser raw = some out ∨ mobileParser raw = some out ∨ shortParser raw = some out := by
  rw [parseCardData_cases] at h
  cases hf : fullParser raw with
  | some r => rw [hf] at h; exact Or.inl h
  | none =>
    rw [hf] at h
    cases hm : mobileParser raw with
    | some r => rw [hm] at h; exact Or.inr (Or.inl h)
    | none => rw [hm] at h; exact Or.inr (Or.inr h)

/-! ### Claim theorems: card normalizer -/

/-- C1, counterexample: the normalizer accepts the line
`"60177000012345678901=0"` and returns the 10-character identifier
`"1234567890"`, which is neither 9 nor 16 digits long, refuting the claim
that every accepted output has length exactly 9 or exactly 16. -/
theorem parseCardData_length_cex :
    parseCardData "60177000012345678901=0".data = some "1234567890".data ∧
      ¬(("1234567890".data : Str).length = 9 ∨ ("1234567890".data : Str).length = 16) := by
  decide

/-- C1 (amended): every identifier returned by the normalizer is all-decimal
with at least 9 characters; the mobile form is exactly 16 digits and the
short form exactly 9, but the delimited form may return more than 9 digits
when the matched field's body exceeds 9 digits. -/
theorem parseCardData_output_shape :
    (∀ raw out : Str, parseCardData raw = some out →
        out.all Char.isDigit = true ∧ CARD_ID_LENGTH ≤ out.length) ∧
    (∀ raw out : Str, mobileParser raw = some out → out.length = 16) ∧
    (∀ raw out : Str, shortParser raw = some out → out.length = CARD_ID_LENGTH) := by
  refine ⟨?_, ?_, ?_⟩
  · intro raw out h
    rcases parseCardData_some_cases raw out h with hf | hm | hs
    · exact fullParser_shape raw out hf
    · obtain ⟨-, hd, hl⟩ := mobileParser_shape raw out hm
      exact ⟨hd, by rw [hl]; decide⟩
    · obtain ⟨-, hd, hl⟩ := shortParser_shape raw out hs
      exact ⟨hd, le_of_eq hl.symm⟩
  · intro raw out h
    exact (mobileParser_shape raw out h).2.2
  · intro raw out h
    exact (shortParser_shape raw out h).2.2

/-- Witness for the amended C1 theorem at the input `"111222"`. -/
theorem parseCardData_output_shape_witness :
    ("000111222".data : Str).all Char.isDigit = true ∧
      CARD_ID_LENGTH ≤ ("000111222".data : Str).length :=
  parseCardData_output_shape.1 "111222".data "000111222".data (by decide)

/-- C2: on a line with a `'='` whose first issuer-marked field decomposes as
marker (6) + site bytes (3) + body + check digit, `fullParser` returns the
body zero-padded to 9 characters; it returns nothing when no field carries
the marker or when the stripped remainder is empty or not all-decimal, in
which case the normalizer falls through to the remaining formats; and the
documented example normalizes as stated. -/
theorem fullParser_delimited :
    (∀ (raw seg mid body : Str) (chk : Char),
        raw.contains '=' = true →
        (raw.splitOn '=').find? (fun s => s.take 6 == ISSUER) = some seg →
        seg = ISSUER ++ mid ++ body ++ [chk] → mid.length = 3 →
        body ≠ [] → body.all Char.isDigit = true →
        fullParser raw = some (padStart CARD_ID_LENGTH body)) ∧
    (∀ raw : Str,
        (raw.splitOn '=').find? (fun s => s.take 6 == ISSUER) = none →
        fullParser raw = none) ∧
    (∀ raw seg : Str,
        (raw.splitOn '=').find? (fun s => s.take 6 == ISSUER) = some seg →
        seg.dropLast.drop 9 = [] ∨ (seg.dropLast.drop 9).all Char.isDigit = false →
        fullParser raw = none) ∧
    (∀ raw : Str, fullParser raw = none →
        parseCardData raw = createCardParser [mobileParser, shortParser] raw) ∧
    parseCardData "1570=900000001=00=6017700001111110".data = some "000111111".data := by
  refine ⟨?_, ?_, ?_, ?_, by decide⟩
  · intro raw seg mid body chk hcont hfind hseg hmid hne hdig
    have hlen : (ISSUER ++ mid).length = 9 := by
      rw [List.length_append, hmid]
      decide
    have hbody : seg.dropLast.drop 9 = body := by
      subst hseg
      rw [List.dropLast_concat]
      exact List.drop_left' hlen
    unfold fullParser
    split
    · rw [hfind]
      dsimp only
      rw [hbody, if_neg (by simp [hne, hdig])]
    · rename_i hc
      exact absurd hcont hc
  · intro raw hfind
    unfold fullParser
    split
    · rw [hfind]
    · rfl
  · intro raw seg hfind hbad
    unfold fullParser
    split
    · rw [hfind]
      dsimp only
      exact if_pos hbad
    · rfl
  · intro raw hfull
    rw [parseCardData_cases, hfull]
    simp only [createCardParser]
    cases mobileParser raw with
    | some r => rfl
    | none =>
      cases shortParser raw with
      | some r => rfl
      | none => rfl

/-- Witness for C2, instantiating the delimited rule on the documented
example line. -/
theorem fullParser_delimited_witness :
    fullParser "1570=900000001=00=6017700001111110".data =
      some (padStart CARD_ID_LENGTH "111111".data) :=
  fullParser_delimited.1 "1570=900000001=00=6017700001111110".data
    "6017700001111110".data "000".data "111111".data '0'
    (by decide) (by decide) (by decide) (by decide) (by decide) (by decide)

/-- C3: the normalizer runs the delimited, mobile and short formats in that
fixed order and returns the first match — a full-format match wins outright,
the mobile format is consulted only when the full format misses, and the
short format decides only when both earlier formats miss. -/
theorem parseCardData_priority :
    (∀ raw r : Str, fullParser raw = some r → parseCardData raw = some r) ∧
    (∀ raw r : Str, fullParser raw = none → mobileParser raw = some r →
        parseCardData raw = some r) ∧
    (∀ raw : Str, fullParser raw = none → mobileParser raw = none →
        parseCardData raw = shortParser raw) := by
  refine ⟨?_, ?_, ?_⟩
  · intro raw r hf
    rw [parseCardData_cases, hf]
  · intro raw r hf hm
    rw [parseCardData_cases, hf, hm]
  · intro raw hf hm
    rw [parseCardData_cases, hf, hm]

/-- Witness for C3 on a delimited line. -/
theorem parseCardData_priority_witness :
    parseCardData "1=6017700001234560".data = some "000123456".data :=
  parseCardData_priority.1 "1=6017700001234560".data "000123456".data (by decide)

/-- C8: every 1–9 character all-decimal line is accepted by the short rule
and zero-padded to exactly 9 characters, and feeding that output back to
the normalizer returns it unchanged. -/
theorem shortForm_pad_idem (raw : Str) (h1 : 1 ≤ raw.length) (h9 : raw.length ≤ 9)
    (hdig : raw.all Char.isDigit = true) :
    shortParser raw = some (padStart 9 raw) ∧
    (padStart 9 raw).length = 9 ∧
    parseCardData (padStart 9 raw) = some (padStart 9 raw) := by
  have hne : raw ≠ [] := by
    cases raw
    · simp at h1
    · simp
  have hshort : shortParser raw = some (padStart 9 raw) := by
    unfold shortParser
    rw [if_pos ⟨hne, hdig, h9⟩]
    rfl
  have hodig : (padStart 9 raw).all Char.isDigit = true := padStart_all_digits 9 raw hdig
  have holen : (padStart 9 raw).length = 9 := padStart_length_of_le 9 raw h9
  refine ⟨hshort, holen, ?_⟩
  have hfull : fullParser (padStart 9 raw) = none :=
    fullParser_none_of_no_sep _ (contains_sep_eq_false _ hodig)
  have hmob : mobileParser (padStart 9 raw) = none := by
    cases hmo : mobileParser (padStart 9 raw) with
    | none => rfl
    | some r =>
      obtain ⟨hr, -, hl⟩ := mobileParser_shape _ r hmo
      rw [hr, holen] at hl
      exact absurd hl (by decide)
  have hone : padStart 9 raw ≠ [] := by
    intro hnil
    rw [hnil] at holen
    exact absurd holen (by decide)
  rw [parseCardData_cases, hfull, hmob]
  dsimp only
  unfold shortParser
  rw [if_pos ⟨hone, hodig, by rw [holen]; decide⟩]
  simp only [CARD_ID_LENGTH]
  rw [padStart_eq_self _ _ (le_of_eq holen.symm)]

/-- Witness for C8 at the input `"42"`. -/
theorem shortForm_pad_idem_witness :
    shortParser "42".data = some (padStart 9 "42".data) ∧
    (padStart 9 "42".data).length = 9 ∧
    parseCardData (padStart 9 "42".data) = some (padStart 9 "42".data) :=
  shortForm_pad_idem "42".data (by decide) (by decide) (by decide)

/-- C9: the normalizer is total — it returns the no-match result exactly
when all three format rules miss, and any returned identifier is the exact
output of one of the three rules, never a partial or best-effort value. -/
theorem parse_total_noMatch (raw : Str) :
    (parseCardData raw = none ↔
      fullParser raw = none ∧ mobileParser raw = none ∧ shortParser raw = none) ∧
    (∀ out : Str, parseCardData raw = some out →
      fullParser raw = some out ∨ mobileParser raw = some out ∨
        shortParser raw = some out) := by
  constructor
  · constructor
    · intro h
      rw [parseCardData_cases] at h
      cases hf : fullParser raw with
      | some r =>
        rw [hf] at h
        dsimp only at h
        exact absurd h (by simp)
      | none =>
        rw [hf] at h
        cases hm : mobileParser raw with
        | some r =>
          rw [hm] at h
          dsimp only at h
          exact absurd h (by simp)
        | none =>
          rw [hm] at h
          exact ⟨rfl, rfl, h⟩
    · rintro ⟨hf, hm, hs⟩
      rw [parseCardData_cases, hf, hm, hs]
  · exact parseCardData_some_cases raw

/-- Witness for C9: a line matching no format yields the no-match result. -/
theorem parse_total_noMatch_witness :
    parseCardData "scanner jam".data = none :=
  (parse_total_noMatch "scanner jam".data).1.mpr ⟨by decide, by decide, by decide⟩

/-! ### Serial device discovery (`findSerialPath` in index.js) -/

/-- One enumerated candidate device: its resolved path and the USB
descriptor identifiers read from sysfs (absent on the mac enumeration
path or when the descriptor read fails). -/
structure PortInfo where
  path : Str
  vendorId : Option Str
  productId : Option Str
deriving DecidableEq

/-- JavaScript `s.toLowerCase()` for the hex identifier strings. -/
def lowerStr (s : Str) : Str := s.map Char.toLower

/-- The filter predicate from `findSerialPath`: a port qualifies when its
(lowercased) vendor identifier equals the wanted one, if one is wanted, and
likewise for the product identifier; a missing identifier is compared as
the empty string (`p.vendorId || ""`). -/
def portMatches (wantVid wantPid : Option Str) (p : PortInfo) : Bool :=
  (match wantVid with
   | some w => lowerStr (p.vendorId.getD []) == w
   | none => true) &&
  (match wantPid with
   | some w => lowerStr (p.productId.getD []) == w
   | none => true)

/-- The unfiltered fallback at the end of `findSerialPath`:
`if (ports.length === 1) return ports[0].path; return null;`. -/
def singlePort (ports : List PortInfo) : Option Str :=
  match ports with
  | [p] => some p.path
  | _ => none

/-- `findSerialPath` from index.js, with the configuration fields and the
enumerated port list as explicit inputs: an explicit `serialPath` wins
outright; otherwise, when a vendor or product filter is configured and at
least one port matches it, the first matching port is taken; otherwise the
sole enumerated port is taken when there is exactly one, else no path. -/
def findSerialPath (serialPath vendorId productId : Option Str)
    (ports : List PortInfo) : Option Str :=
  match serialPath with
  | some p => some p
  | none =>
    let wantVid := vendorId.map lowerStr
    let wantPid := productId.map lowerStr
    if wantVid.isSome || wantPid.isSome then
      match (ports.filter (portMatches wantVid wantPid)).head? with
      | some p => some p.path
      | none => singlePort ports
    else singlePort ports

/-! ### Claim theorems: device discovery -/

/-- C4, counterexample: with a configured vendor filter `"09d8"`, no pinned
path, and a single enumerated port whose vendor identifier `"aaaa"` does
not match, zero ports match the filter, yet discovery returns that port's
path instead of failing. -/
theorem findSerialPath_zero_match_cex :
    ([⟨"/dev/ttyUSB0".data, some "aaaa".data, none⟩] : List PortInfo).filter
        (portMatches (some "09d8".data) none) = [] ∧
    findSerialPath none (some "09d8".data) none
        [⟨"/dev/ttyUSB0".data, some "aaaa".data, none⟩] = some "/dev/ttyUSB0".data := by
  constructor
  · decide
  · decide

/-- C4 (amended): with a vendor/product filter configured and no pinned
path, discovery returns the first enumerated port matching the filter when
at least one matches; when zero match, it falls back to the unfiltered
rule — the sole enumerated port if exactly one is enumerated, no path
otherwise. -/
theorem findSerialPath_filtered (vendorId productId : Option Str)
    (ports : List PortInfo) (hfilt : vendorId.isSome = true ∨ productId.isSome = true) :
    (∀ (p : PortInfo) (ps : List PortInfo),
        ports.filter (portMatches (vendorId.map lowerStr) (productId.map lowerStr)) = p :: ps →
        findSerialPath none vendorId productId ports = some p.path) ∧
    (ports.filter (portMatches (vendorId.map lowerStr) (productId.map lowerStr)) = [] →
        findSerialPath none vendorId productId ports = singlePort ports) := by
  have hcond : ((vendorId.map lowerStr).isSome || (productId.map lowerStr).isSome) = true := by
    rcases hfilt with h | h
    · cases vendorId with
      | none => simp at h
      | some v => simp
    · cases productId with
      | none => simp at h
      | some v => simp
  constructor
  · intro p ps hfl
    unfold findSerialPath
    dsimp only
    rw [if_pos hcond, hfl]
    rfl
  · intro hfl
    unfold findSerialPath
    dsimp only
    rw [if_pos hcond, hfl]
    rfl

/-- Witness for the amended C4 theorem: a vendor filter with two matching
ports selects the first. -/
theorem findSerialPath_filtered_witness :
    findSerialPath none (some "09D8".data) none
      [⟨"/dev/ttyUSB1".data, some "09d8".data, some "0050".data⟩,
       ⟨"/dev/ttyUSB2".data, some "09d8".data, some "0051".data⟩] =
      some "/dev/ttyUSB1".data :=
  (findSerialPath_filtered (some "09D8".data) none
      [⟨"/dev/ttyUSB1".data, some "09d8".data, some "0050".data⟩,
       ⟨"/dev/ttyUSB2".data, some "09d8".data, some "0051".data⟩]
      (Or.inl rfl)).1
    ⟨"/dev/ttyUSB1".data, some "09d8".data, some "0050".data⟩
    [⟨"/dev/ttyUSB2".data, some "09d8".data, some "0051".data⟩] (by decide)

/-- C10: with no pinned path and no vendor/product filter configured,
discovery returns a path exactly when one single device is enumerated:
the sole port's path for a one-element enumeration, and no path for an
empty enumeration or for two or more candidates. -/
theorem findSerialPath_no_filter (ports : List PortInfo) :
    (∀ p : PortInfo, ports = [p] → findSerialPath none none none ports = some p.path) ∧
    (ports = [] → findSerialPath none none none ports = none) ∧
    (∀ (p q : PortInfo) (rest : List PortInfo), ports = p :: q :: rest →
        findSerialPath none none none ports = none) := by
  refine ⟨?_, ?_, ?_⟩
  · intro p hp
    subst hp
    rfl
  · intro hp
    subst hp
    rfl
  · intro p q rest hp
    subst hp
    rfl

/-- Witness for C10 on a two-port enumeration. -/
theorem findSerialPath_no_filter_witness :
    findSerialPath none none none
      [⟨"/dev/ttyACM0".data, none, none⟩, ⟨"/dev/ttyACM1".data, none, none⟩] = none :=
  (findSerialPath_no_filter
      [⟨"/dev/ttyACM0".data, none, none⟩, ⟨"/dev/ttyACM1".data, none, none⟩]).2.2
    ⟨"/dev/ttyACM0".data, none, none⟩ ⟨"/dev/ttyACM1".data, none, none⟩ [] rfl

/-! ### Update supervisor (`checkForUpdates` / `startUpdateLoop` in index.js) -/

/-- One tick of `checkForUpdates`, as a pure function of the effect
outcomes: `remoteSha` is what `fetchRemoteVersion` resolved (none on any
HTTP failure), `applyOk` is whether `applyUpdate` replaced the files, and
`marker` is the current content of the `.version` file (none if
unreadable).  Returns the marker content after the tick and whether the
process exited to restart.  The marker is rewritten only on the
`applyUpdate()` success path, right before `process.exit(0)`. -/
def checkForUpdates (remoteSha : Option Str) (applyOk : Bool)
    (marker : Option Str) : Option Str × Bool :=
  match remoteSha with
  | none => (marker, false)
  | some remote =>
    if marker = some remote then (marker, false)
    else if applyOk then (some remote, true)
    else (marker, false)

/-- The first-run branch of `startUpdateLoop`: when `getLocalVersion()` is
absent, the current remote revision is fetched and written to the
`.version` file without running any update.  Returns the marker content
after this step. -/
def startUpdateLoopFirstWrite (remoteSha : Option Str)
    (marker : Option Str) : Option Str :=
  match marker with
  | some _ => marker
  | none =>
    match remoteSha with
    | some sha => some sha
    | none => none

/-! ### Claim theorems: update supervisor -/

/-- C5, counterexample: on first run with no local marker,
`startUpdateLoop` writes the fetched remote revision to the marker file
even though no code replacement took place, refuting "at no other time is
the marker written". -/
theorem versionMarker_first_run_cex :
    startUpdateLoopFirstWrite (some "0a1b2c3".data) none = some "0a1b2c3".data ∧
      startUpdateLoopFirstWrite (some "0a1b2c3".data) none ≠ none := by
  constructor
  · rfl
  · intro h
    exact absurd h (by decide)

/-- C5 (amended): within `checkForUpdates` the marker changes only on a
successful code replacement — a failed `applyUpdate` or failed fetch
leaves it untouched, and any change writes the fetched remote revision and
is immediately followed by the restart exit; additionally, on first run
with no stored marker, `startUpdateLoop` records the fetched remote
revision without any code replacement. -/
theorem versionMarker_discipline (remoteSha : Option Str) (applyOk : Bool)
    (marker : Option Str) :
    (applyOk = false → (checkForUpdates remoteSha applyOk marker).1 = marker) ∧
    (remoteSha = none → (checkForUpdates remoteSha applyOk marker).1 = marker) ∧
    ((checkForUpdates remoteSha applyOk marker).1 ≠ marker →
        applyOk = true ∧ (checkForUpdates remoteSha applyOk marker).1 = remoteSha ∧
          (checkForUpdates remoteSha applyOk marker).2 = true) ∧
    (startUpdateLoopFirstWrite remoteSha marker ≠ marker →
        marker = none ∧ startUpdateLoopFirstWrite remoteSha marker = remoteSha) := by
  refine ⟨?_, ?_, ?_, ?_⟩
  · intro hfail
    subst hfail
    cases remoteSha with
    | none => rfl
    | some remote =>
      simp only [checkForUpdates]
      by_cases hm : marker = some remote
      · rw [if_pos hm]
      · rw [if_neg hm]
        rfl
  · intro hnone
    subst hnone
    rfl
  · intro hchange
    cases remoteSha with
    | none => exact absurd rfl hchange
    | some remote =>
      simp only [checkForUpdates] at hchange ⊢
      by_cases hm : marker = some remote
      · rw [if_pos hm] at hchange
        exact absurd rfl hchange
      · rw [if_neg hm] at hchange ⊢
        cases applyOk with
        | false => exact absurd rfl hchange
        | true => exact ⟨rfl, rfl, rfl⟩
  · intro hchange
    cases marker with
    | some m => exact absurd rfl hchange
    | none =>
      cases remoteSha with
      | none => exact absurd rfl hchange
      | some sha => exact ⟨rfl, rfl⟩

/-- Witness for the amended C5 theorem: a failed replacement leaves the
marker, and the first-run branch records the remote revision. -/
theorem versionMarker_discipline_witness :
    (checkForUpdates (some "9f8e7d6".data) false (some "1234567".data)).1 =
        some "1234567".data ∧
      startUpdateLoopFirstWrite (some "9f8e7d6".data) none = some "9f8e7d6".data := by
  constructor
  · exact (versionMarker_discipline (some "9f8e7d6".data) false
      (some "1234567".data)).1 rfl
  · exact ((versionMarker_discipline (some "9f8e7d6".data) false none).2.2.2
      (by decide)).2

/-! ### Delivery pipeline (`sendToServer` / `retry` in index.js) -/

/-- Observable actions of one event's delivery pipeline. -/
inductive SendEvent where
  | post (attempt : Nat)
  | delayEv (ms : Nat)
  | giveUp
deriving DecidableEq

/-- The trace of `sendToServer(scan, attempt)` with `retry`: `fails n`
says whether the n-th POST attempt fails (non-2xx status or request
error).  A failed attempt with `attempt < sendRetries` waits
`sendRetryDelay` and recurses at `attempt + 1`; a failed attempt at the
limit logs the give-up; a successful attempt ends the trace. -/
def sendTrace (sendRetries sendRetryDelay : Nat) (fails : Nat -> Bool)
    (attempt : Nat) : List SendEvent :=
  SendEvent.post attempt ::
    (if fails attempt then
      if h : attempt < sendRetries then
        SendEvent.delayEv sendRetryDelay ::
          sendTrace sendRetries sendRetryDelay fails (attempt + 1)
      else [SendEvent.giveUp]
    else [])
termination_by sendRetries - attempt
decreasing_by omega

/-- Number of POST attempts in a delivery trace. -/
def countPosts (tr : List SendEvent) : Nat :=
  tr.countP fun e =>
    match e with
    | SendEvent.post _ => true
    | _ => false

theorem countPosts_le (d : Nat) (fails : Nat -> Bool) :
    ∀ (k r a : Nat), r - a ≤ k -> countPosts (sendTrace r d fails a) ≤ r - a + 1 := by
  have hgu : countPosts [SendEvent.giveUp] = 0 := rfl
  have hnil : countPosts ([] : List SendEvent) = 0 := rfl
  have hshort : ∀ (a : Nat) (tl : List SendEvent),
      countPosts (SendEvent.post a :: tl) = countPosts tl + 1 := by
    intro a tl
    simp [countPosts, List.countP_cons]
  have htail : ∀ (a x : Nat) (tl : List SendEvent),
      countPosts (SendEvent.post a :: SendEvent.delayEv x :: tl) = countPosts tl + 1 := by
    intro a x tl
    simp [countPosts, List.countP_cons]
  intro k
  induction k with
  | zero =>
    intro r a hk
    rw [sendTrace]
    have hlt : ¬ a < r := by omega
    rcases Bool.eq_false_or_eq_true (fails a) with hf | hf
    · rw [hf, if_pos rfl, dif_neg hlt, hshort]
      omega
    · rw [hf, if_neg (by decide), hshort]
      omega
  | succ n ih =>
    intro r a hk
    rw [sendTrace]
    rcases Bool.eq_false_or_eq_true (fails a) with hf | hf
    · rw [hf, if_pos rfl]
      by_cases hlt : a < r
      · rw [dif_pos hlt, htail]
        have hrec := ih r (a + 1) (by omega)
        omega
      · rw [dif_neg hlt, hshort]
        omega
    · rw [hf, if_neg (by decide), hshort]
      omega

/-! ### Claim theorems: delivery pipeline -/

/-- C6: with `sendRetries = 3`, an always-failing delivery makes exactly
the three POST attempts 1, 2, 3, each retry preceded by the fixed
`sendRetryDelay` wait, then gives up with no further network calls; and
for any failure pattern and any configured `sendRetries ≥ 1`, the number
of POST attempts for one event never exceeds `sendRetries`. -/
theorem sendRetries_policy (d : Nat) :
    (∀ fails : Nat -> Bool, (∀ n, fails n = true) ->
        sendTrace 3 d fails 1 =
          [SendEvent.post 1, SendEvent.delayEv d, SendEvent.post 2,
           SendEvent.delayEv d, SendEvent.post 3, SendEvent.giveUp]) ∧
    (∀ (fails : Nat -> Bool) (r : Nat), 1 ≤ r ->
        countPosts (sendTrace r d fails 1) ≤ r) := by
  constructor
  · intro fails hfail
    rw [sendTrace, hfail 1, if_pos rfl, dif_pos (by omega : (1:Nat) < 3)]
    rw [sendTrace, hfail (1 + 1), if_pos rfl, dif_pos (by omega : 1 + 1 < 3)]
    rw [sendTrace, hfail (1 + 1 + 1), if_pos rfl, dif_neg (by omega : ¬ 1 + 1 + 1 < 3)]
  · intro fails r hr
    have := countPosts_le d fails (r - 1) r 1 (by omega)
    omega

/-- Witness for C6 with the default delay of 2000 ms and an always-failing
endpoint. -/
theorem sendRetries_policy_witness :
    sendTrace 3 2000 (fun _ => true) 1 =
      [SendEvent.post 1, SendEvent.delayEv 2000, SendEvent.post 2,
       SendEvent.delayEv 2000, SendEvent.post 3, SendEvent.giveUp] ∧
    countPosts (sendTrace 3 2000 (fun _ => true) 1) ≤ 3 :=
  ⟨(sendRetries_policy 2000).1 (fun _ => true) (fun _ => rfl),
   (sendRetries_policy 2000).2 (fun _ => true) 3 (by omega)⟩

/-! ### Reconnect state machine (`scheduleReconnect` / `connectScanner`) -/

/-- Connection-manager state: whether the serial stream is open, and the
delays of the currently pending reconnect timers (the source keeps a
single `reconnectTimer` variable). -/
structure GatewayState where
  portOpen : Bool
  timers : List Nat
deriving DecidableEq

/-- `scheduleReconnect` from index.js: closes any port, clears the pending
timer and arms exactly one new timer with `config.reconnectInterval`. -/
def scheduleReconnect (ri : Nat) (_s : GatewayState) : GatewayState :=
  { portOpen := false, timers := [ri] }

/-- The three ways one run of `connectScanner` can end. -/
inductive ConnectOutcome where
  | noDevice
  | openOk
  | openErr

/-- `connectScanner` from index.js, summarised by its outcome: it first
clears the pending timer; with no device found it arms one retry timer;
a successful open leaves the port open and no timer; a failed open goes
through `scheduleReconnect`. -/
def connectScanner (ri : Nat) (o : ConnectOutcome) : GatewayState :=
  match o with
  | ConnectOutcome.noDevice => { portOpen := false, timers := [ri] }
  | ConnectOutcome.openOk => { portOpen := true, timers := [] }
  | ConnectOutcome.openErr => scheduleReconnect ri { portOpen := false, timers := [] }

/-- Events that drive the connection manager: a serial error or stream
close runs `scheduleReconnect`; an armed timer firing runs
`connectScanner` with some outcome. -/
inductive gwStep (ri : Nat) : GatewayState -> GatewayState -> Prop where
  | errorOrClose (s : GatewayState) (h : s.portOpen = true) :
      gwStep ri s (scheduleReconnect ri s)
  | timerFire (s : GatewayState) (o : ConnectOutcome) (h : s.timers ≠ []) :
      gwStep ri s (connectScanner ri o)

/-- States reachable from process start (the startup call to
`connectScanner`) by any sequence of error/close and timer events. -/
inductive gwReachable (ri : Nat) : GatewayState -> Prop where
  | start (o : ConnectOutcome) : gwReachable ri (connectScanner ri o)
  | next {s t : GatewayState} : gwReachable ri s -> gwStep ri s t -> gwReachable ri t

/-! ### Claim theorems: reconnect state machine -/

/-- C7: a read error or stream close while the port is open is a valid
step that leaves the port closed with exactly one reconnect timer armed
at `reconnectInterval`; and in every reachable state of the connection
manager at most one reconnect timer is pending, however many consecutive
failures occur. -/
theorem reconnect_single_timer (ri : Nat) :
    (∀ s : GatewayState, s.portOpen = true ->
        gwStep ri s (scheduleReconnect ri s) ∧
        (scheduleReconnect ri s).timers = [ri] ∧
        (scheduleReconnect ri s).portOpen = false) ∧
    (∀ s : GatewayState, gwReachable ri s -> s.timers.length ≤ 1) := by
  constructor
  · intro s hopen
    exact ⟨gwStep.errorOrClose s hopen, rfl, rfl⟩
  · intro s hreach
    induction hreach with
    | start o => cases o <;> simp [connectScanner, scheduleReconnect]
    | next hs hstep ih =>
      cases hstep with
      | errorOrClose hopen => simp [scheduleReconnect]
      | timerFire o hne => cases o <;> simp [connectScanner, scheduleReconnect]

/-- Witness for C7: an open port with no pending timer takes the
error/close step into the single-timer state, and that state is
reachable with at most one pending timer. -/
theorem reconnect_single_timer_witness :
    (gwStep 5000 { portOpen := true, timers := [] }
        (scheduleReconnect 5000 { portOpen := true, timers := [] }) ∧
      (scheduleReconnect 5000 { portOpen := true, timers := [] }).timers = [5000] ∧
      (scheduleReconnect 5000 { portOpen := true, timers := [] }).portOpen = false) ∧
    (connectScanner 5000 ConnectOutcome.openOk).timers.length ≤ 1 :=
  ⟨(reconnect_single_timer 5000).1 { portOpen := true, timers := [] } rfl,
   (reconnect_single_timer 5000).2 (connectScanner 5000 ConnectOutcome.openOk)
     (gwReachable.start ConnectOutcome.openOk)⟩

end CardGateway
